import Mathlib

/-!
Shallow embedding of `src/main.py` of the content-automation-bot repository,
together with theorems checking the repository's specification claims.

External services (Google Sheets, the model API, HTTP, the filesystem) are
modelled as explicit inputs: a sheet read is a value of type
`Except Unit (List (List String))` (`.error` models the client raising),
a model call is a function from model name to `Option String`
(`none` models the call raising), and so on.  The per-record workflow
`process_call_workflow` and the top-level `main` loop are translated
statement by statement from the source, threading an explicit trace of
observable effects (sheet writes, temp-file lifecycle, generation attempts,
polling sleeps, webhook notifications).
-/

/-- JSON values as produced by Python's `json.loads`.  Numbers are modelled
as integers (the pipeline's scores are integers 0-10; no claim involves a
fractional JSON number). -/
inductive Json where
  | null : Json
  | bool : Bool → Json
  | num : Int → Json
  | str : String → Json
  | arr : List Json → Json
  | obj : List (String × Json) → Json

/-- Python truthiness of a JSON value (`if not analysis_data: ...`):
`None`, `False`, `0`, `""`, `[]` and `{}` are falsy. -/
def jsonTruthy : Json → Bool
  | .null => false
  | .bool b => b
  | .num n => n != 0
  | .str s => s ≠ ""
  | .arr l => !l.isEmpty
  | .obj l => !l.isEmpty

/-- Python dict lookup on the association list backing a JSON object.
`json.loads` keeps the last occurrence of a duplicated key, so the fold
lets later bindings win. -/
def jsonLookup (l : List (String × Json)) (k : String) : Option Json :=
  l.foldl (fun acc p => if p.1 = k then some p.2 else acc) none

/-- Python `d.get(k, default)` on a parsed JSON value: returns the binding
if the value is a dict containing `k`, the default if it is a dict without
`k`; on a non-dict the call would raise, callers guard for that case
separately. -/
def jGet (j : Json) (k : String) (dflt : Json) : Json :=
  match j with
  | .obj l => (jsonLookup l k).getD dflt
  | _ => dflt

/-- Python `d[k]` bracket access on a parsed JSON value: `some` binding on a
dict that has the key, `none` models the KeyError / TypeError raise. -/
def jIndex (j : Json) (k : String) : Option Json :=
  match j with
  | .obj l => jsonLookup l k
  | _ => none

/-- Bool test for being a JSON object (a Python dict after `json.loads`). -/
def jIsObj : Json → Bool
  | .obj _ => true
  | _ => false

/-- Python `x >= n` where `x` is a parsed JSON value and `n` an int literal:
defined for numbers and bools (bools are ints in Python); `none` models the
TypeError raised on any other operand type. -/
def pyGeInt (v : Json) (n : Int) : Option Bool :=
  match v with
  | .num m => some (decide (m ≥ n))
  | .bool b => some (decide ((if b then (1 : Int) else 0) ≥ n))
  | _ => none

/-! ### Character-level string utilities (modelling Python `str` methods) -/

/-- Opening brace character, written via its code point. -/
def lbrace : Char := Char.ofNat 123

/-- Closing brace character, written via its code point. -/
def rbrace : Char := Char.ofNat 125

/-- Whitespace recognised by Python's `str.strip` / the JSON lexer
(restricted to the ASCII whitespace the pipeline can encounter). -/
def isWsChar (c : Char) : Bool :=
  c = ' ' || c = '\n' || c = '\t' || c = '\r'

/-- Test whether pattern `p` is a prefix of the second list and, if so,
return the remainder after it. -/
def dropPrefixChars : List Char → List Char → Option (List Char)
  | [], cs => some cs
  | _ :: _, [] => none
  | p :: ps, c :: cs => if p = c then dropPrefixChars ps cs else none

/-- Python `s.replace(old, new)`: replace all non-overlapping occurrences of
`old`, scanning left to right.  Structural recursion on a fuel argument so
that the kernel can evaluate it; `replaceChars` supplies sufficient fuel. -/
def replaceCharsAux (old new : List Char) : Nat → List Char → List Char
  | 0, cs => cs
  | _ + 1, [] => []
  | fuel + 1, c :: cs =>
    match dropPrefixChars old (c :: cs) with
    | some rest => new ++ replaceCharsAux old new fuel rest
    | none => c :: replaceCharsAux old new fuel cs

/-- Python `s.replace(old, new)` on character lists. -/
def replaceChars (old new cs : List Char) : List Char :=
  replaceCharsAux old new (cs.length + 1) cs

/-- Python `s.strip()`: drop leading and trailing whitespace. -/
def stripChars (cs : List Char) : List Char :=
  ((cs.dropWhile isWsChar).reverse.dropWhile isWsChar).reverse

/-! ### JSON parsing (modelling `json.loads` on the pipeline's payloads) -/

/-- Skip leading JSON whitespace. -/
def skipWs : List Char → List Char
  | [] => []
  | c :: cs => if isWsChar c then skipWs cs else c :: cs

/-- Decode a single-character JSON escape. -/
def escChar (e : Char) : Option Char :=
  if e = '"' || e = '\\' || e = '/' then some e
  else if e = 'n' then some '\n'
  else if e = 't' then some '\t'
  else if e = 'r' then some '\r'
  else if e = 'b' then some (Char.ofNat 8)
  else if e = 'f' then some (Char.ofNat 12)
  else none

/-- Value of a hex digit, if any. -/
def hexVal (c : Char) : Option Nat :=
  if c.isDigit then some (c.toNat - 48)
  else if 'a' ≤ c ∧ c ≤ 'f' then some (c.toNat - 87)
  else if 'A' ≤ c ∧ c ≤ 'F' then some (c.toNat - 55)
  else none

/-- Parse the body of a JSON string literal (after the opening quote),
returning the decoded characters and the rest of the input. -/
def parseStrChars : Nat → List Char → Option (List Char × List Char)
  | 0, _ => none
  | _ + 1, [] => none
  | fuel + 1, c :: cs =>
    if c = '"' then some ([], cs)
    else if c = '\\' then
      match cs with
      | [] => none
      | e :: cs2 =>
        match escChar e with
        | some d => (parseStrChars fuel cs2).map (fun p => (d :: p.1, p.2))
        | none =>
          if e = 'u' then
            match cs2 with
            | h1 :: h2 :: h3 :: h4 :: cs3 =>
              match hexVal h1, hexVal h2, hexVal h3, hexVal h4 with
              | some a, some b, some c2, some d2 =>
                (parseStrChars fuel cs3).map
                  (fun p => (Char.ofNat (((a * 16 + b) * 16 + c2) * 16 + d2) :: p.1, p.2))
              | _, _, _, _ => none
            | _ => none
          else none
    else (parseStrChars fuel cs).map (fun p => (c :: p.1, p.2))

/-- Span of leading decimal digits. -/
def takeDigits : List Char → List Char × List Char
  | [] => ([], [])
  | c :: cs =>
    if c.isDigit then
      let p := takeDigits cs
      (c :: p.1, p.2)
    else ([], c :: cs)

/-- Numeric value of a digit string. -/
def digitsVal (ds : List Char) : Nat :=
  ds.foldl (fun a c => a * 10 + (c.toNat - 48)) 0

/-- Parse a JSON integer literal.  Fractional and exponent forms are outside
the model (scores are integers), so a following `.`/`e` makes the parse
fail rather than produce a float. -/
def parseJsonNum (cs : List Char) : Option (Int × List Char) :=
  let p : Bool × List Char :=
    match cs with
    | c :: rest => if c = '-' then (true, rest) else (false, cs)
    | [] => (false, [])
  match takeDigits p.2 with
  | ([], _) => none
  | (ds, rest) =>
    let v : Int := if p.1 then -(digitsVal ds : Int) else (digitsVal ds : Int)
    match rest with
    | [] => some (v, [])
    | c :: _ => if c = '.' || c = 'e' || c = 'E' then none else some (v, rest)

mutual

/-- Parse one JSON value. -/
def parseVal : Nat → List Char → Option (Json × List Char)
  | 0, _ => none
  | fuel + 1, cs0 =>
    match skipWs cs0 with
    | [] => none
    | c :: rest =>
      if c = '"' then
        match parseStrChars (rest.length + 1) rest with
        | some (sc, r) => some (.str (String.mk sc), r)
        | none => none
      else if c = lbrace then
        parseObjRest fuel rest true []
      else if c = '[' then
        parseArrRest fuel rest true []
      else
        match dropPrefixChars (("null").data) (c :: rest) with
        | some r => some (.null, r)
        | none =>
          match dropPrefixChars (("true").data) (c :: rest) with
          | some r => some (.bool true, r)
          | none =>
            match dropPrefixChars (("false").data) (c :: rest) with
            | some r => some (.bool false, r)
            | none =>
              match parseJsonNum (c :: rest) with
              | some (n, r) => some (.num n, r)
              | none => none

/-- Parse the remainder of a JSON object after the opening brace (or after a
comma), accumulating members in order. -/
def parseObjRest : Nat → List Char → Bool → List (String × Json) →
    Option (Json × List Char)
  | 0, _, _, _ => none
  | fuel + 1, cs, first, acc =>
    match skipWs cs with
    | [] => none
    | c :: rest =>
      if first ∧ c = rbrace then some (.obj acc.reverse, rest)
      else if c = '"' then
        match parseStrChars (rest.length + 1) rest with
        | none => none
        | some (kc, r1) =>
          match skipWs r1 with
          | r2 =>
            match r2 with
            | [] => none
            | c2 :: r3 =>
              if c2 = ':' then
                match parseVal fuel r3 with
                | none => none
                | some (v, r4) =>
                  match skipWs r4 with
                  | [] => none
                  | c3 :: r5 =>
                    if c3 = ',' then
                      parseObjRest fuel r5 false ((String.mk kc, v) :: acc)
                    else if c3 = rbrace then
                      some (.obj (((String.mk kc, v) :: acc).reverse), r5)
                    else none
              else none
      else none

/-- Parse the remainder of a JSON array after the opening bracket (or after
a comma), accumulating elements in order. -/
def parseArrRest : Nat → List Char → Bool → List Json →
    Option (Json × List Char)
  | 0, _, _, _ => none
  | fuel + 1, cs, first, acc =>
    match skipWs cs with
    | [] => none
    | c :: rest =>
      if first ∧ c = ']' then some (.arr acc.reverse, rest)
      else
        match parseVal fuel (c :: rest) with
        | none => none
        | some (v, r1) =>
          match skipWs r1 with
          | [] => none
          | c2 :: r2 =>
            if c2 = ',' then parseArrRest fuel r2 false (v :: acc)
            else if c2 = ']' then some (.arr ((v :: acc).reverse), r2)
            else none

end

/-- Python `json.loads`: parse a full JSON document, requiring only
whitespace after the value.  `none` models the `JSONDecodeError` raise. -/
def json_loads (s : String) : Option Json :=
  match parseVal (s.data.length + 2) s.data with
  | some (j, rest) => if skipWs rest = [] then some j else none
  | none => none

/-- Line 82 of the source: `response.text.replace("```json", "").replace("```", "").strip()`. -/
def cleanText (t : String) : String :=
  String.mk (stripChars (replaceChars (("```").data) []
    (replaceChars (("```json").data) [] t.data)))

/-- Lines 59-65: the ordered fallback list of model identifiers. -/
def models_to_try : List String :=
  ["gemini-1.5-flash", "gemini-1.5-flash-001", "gemini-1.5-pro",
   "gemini-1.5-pro-001", "gemini-pro"]

/-- Loop body of `robust_generate_content` (lines 69-93): try each model in
order; a raising call (`gen m = none`) or a JSON parse failure falls through
to the next model; return the first successfully parsed JSON value. -/
def robustGo (gen : String → Option String) : List String → Option Json
  | [] => none
  | m :: rest =>
    match gen m with
    | none => robustGo gen rest
    | some txt =>
      match json_loads (cleanText txt) with
      | some j => some j
      | none => robustGo gen rest

/-- Lines 56-93: `robust_generate_content`.  The environment `gen` gives,
for each model identifier, either the raw response text or `none` for a
raised error; if every attempt fails the function returns `None`. -/
def robust_generate_content (gen : String → Option String) : Option Json :=
  robustGo gen models_to_try

/-! ### Python numeric conversions used on sheet cell values -/

/-- Value of a nonempty all-digit character list, else `none`. -/
def allDigitsVal (cs : List Char) : Option Nat :=
  if cs ≠ [] ∧ cs.all Char.isDigit then some (digitsVal cs) else none

/-- Python `int(s)` on a cell string: strip whitespace, optional sign, then
decimal digits; `none` models the ValueError raise. -/
def pyInt (s : String) : Option Int :=
  match stripChars s.data with
  | [] => none
  | c :: rest =>
    if c = '-' then (allDigitsVal rest).map (fun n => -(n : Int))
    else if c = '+' then (allDigitsVal rest).map (fun n => (n : Int))
    else (allDigitsVal (c :: rest)).map (fun n => (n : Int))

/-- Python `float(s)` on a cell string, modelled on decimal literals (sign,
digits, optional fractional part); the duration cells the pipeline reads are
plain decimal numbers.  `none` models the ValueError raise. -/
def pyFloat (s : String) : Option Rat :=
  match stripChars s.data with
  | [] => none
  | c0 :: rest0 =>
    let p : Bool × List Char :=
      if c0 = '-' then (true, rest0)
      else if c0 = '+' then (false, rest0)
      else (false, c0 :: rest0)
    let ipp := takeDigits p.2
    let mag : Option Rat :=
      match ipp.2 with
      | [] => if ipp.1 = [] then none else some ((digitsVal ipp.1 : Rat))
      | d :: r2 =>
        if d = '.' then
          let fpp := takeDigits r2
          if fpp.2 = [] ∧ ¬(ipp.1 = [] ∧ fpp.1 = []) then
            some ((digitsVal ipp.1 : Rat) +
              (digitsVal fpp.1 : Rat) / ((10 : Rat) ^ fpp.1.length))
          else none
        else none
    mag.map (fun m => if p.1 then -m else m)

/-! ### Sheet-reading components -/

/-- Lines 25-34: `get_settings`.  The input is the result of the
`Settings!B1:B2` fetch: `.error` models the API call raising, `.ok rows`
the returned `values` list.  The bare `except` maps every failure
(retrieval, missing cell, non-integer cell) to the default 2. -/
def get_settings (fetch : Except Unit (List (List String))) : Int :=
  match fetch with
  | .error _ => 2
  | .ok rows =>
    match rows with
    | [] => 2
    | r0 :: _ =>
      match r0 with
      | [] => 2
      | c0 :: _ =>
        match pyInt c0 with
        | some n => n
        | none => 2

/-- One entry of the pending-calls list: `{"row": i + 1, "url": row[1]}`. -/
structure PendingCall where
  row : Nat
  url : String
deriving DecidableEq

/-- Loop body of `get_pending_calls` (lines 44-53), carrying the 0-based
`enumerate` index `i`.  A row qualifies when it has more than 3 cells and
cell 3 equals `"Pending"`; the duration is `float(row[2])` when the row has
more than 2 cells, else the default 600; a raising `float` (unparsable
duration) silently skips the row via the bare `except`. -/
def scanGo : Nat → List (List String) → List PendingCall
  | _, [] => []
  | i, row :: rest =>
    let tail := scanGo (i + 1) rest
    if row.length > 3 ∧ row.getD 3 "" = "Pending" then
      match (if row.length > 2 then pyFloat (row.getD 2 "") else some 600) with
      | some d => if d > 300 then ⟨i + 1, row.getD 1 ""⟩ :: tail else tail
      | none => tail
    else tail

/-- Lines 36-54: `get_pending_calls` over the fetched `Calls!A:D` rows. -/
def get_pending_calls (rows : List (List String)) : List PendingCall :=
  scanGo 0 rows


/-! ### Per-record workflow (`process_call_workflow`, lines 95-182) -/

/-- Lines 116-119: the readiness polling loop.  `states k` is the asset
state observed at the `k`-th poll (`states 0` is the state returned by
`upload_file`); the loop sleeps 2 seconds and re-fetches while the state is
`"PROCESSING"`.  Returns the index of the first non-PROCESSING observation
(which equals the number of 2-second sleeps performed); `none` when `fuel`
observations were not enough — the source loop itself has no bound. -/
def pollLoop (states : Nat → String) : Nat → Nat → Option Nat
  | 0, _ => none
  | fuel + 1, i =>
    if states i = "PROCESSING" then pollLoop states fuel (i + 1) else some i

/-- One `spreadsheets().values().update` call: its range string and the
single row of values written. -/
structure SheetWrite where
  range : String
  values : List Json

/-- The dict returned on success: `{"analysis": ..., "posts": ...}` where
`posts` is `None` unless content generation was reached. -/
structure RunRec where
  analysis : Json
  posts : Option Json

/-- Observable trace of one `process_call_workflow` run: the returned value
(`none` for the `return None` paths), the sheet writes issued, the temp-file
lifecycle, whether the analysis / content generation requests were issued,
and the total seconds slept in the polling loop. -/
structure WorkflowResult where
  result : Option RunRec
  writes : List SheetWrite
  tmpCreated : Bool
  tmpRemoved : Bool
  analysisAttempted : Bool
  contentAttempted : Bool
  pollSleepSeconds : Nat

/-- External-world inputs of one `process_call_workflow` run. -/
structure WorkflowEnv where
  downloadStatus : Nat
  uploadOk : Bool
  fileStates : Nat → String
  analysisGen : String → Option String
  contentGen : String → Option String

/-- Lines 143-149: the write-back request,
`range="Calls!D{row}:F{row}"`, values
`[["Processed", analysis_data.get('score', 0), analysis_data.get('transcript_summary', '')]]`. -/
def mkWrite (row : Nat) (j : Json) : SheetWrite :=
  ⟨("Calls!D") ++ toString row ++ (":F") ++ toString row,
   [Json.str ("Processed"), jGet j ("score") (Json.num 0),
    jGet j ("transcript_summary") (Json.str (""))]⟩

/-- Lines 95-182: `process_call_workflow`, translated branch by branch.
`none` models the run never returning because the polling loop never sees a
non-PROCESSING state within `fuel` polls.  Every other path returns: the
body after the download is wrapped in `try/except Exception/finally`, the
`finally` removes the temp file, and the `except` turns any raise (upload
failure, `.get` on a non-dict, a TypeError in `score >= 6`, a KeyError
while building the content prompt) into `return None`. -/
def process_call_workflow (env : WorkflowEnv) (call : PendingCall) (fuel : Nat) :
    Option WorkflowResult :=
  if env.downloadStatus ≠ 200 then
    -- lines 101-104: non-200 download, `return None` before the temp file exists
    some ⟨none, [], false, false, false, false, 0⟩
  else if env.uploadOk = false then
    -- line 113 raising: caught at 177, temp file removed at 180-182
    some ⟨none, [], true, true, false, false, 0⟩
  else
    match pollLoop env.fileStates fuel 0 with
    | none => none
    | some n =>
      -- the loop exits on ANY non-PROCESSING state; the source never checks
      -- for FAILED, so analysis is attempted regardless of the final state;
      -- 2 * n is the seconds slept while polling
      match robust_generate_content env.analysisGen with
      | none =>
        -- line 139-140: `if not analysis_data: return None` (no write-back)
        some ⟨none, [], true, true, true, false, 2 * n⟩
      | some j =>
        if jsonTruthy j = false then
          some ⟨none, [], true, true, true, false, 2 * n⟩
        else
          match j with
          | Json.obj _ =>
            match pyGeInt (jGet j ("score") (Json.num 0)) 6 with
            | none =>
              -- `score >= 6` raises TypeError after the write: caught, None
              some ⟨none, [mkWrite call.row j], true, true, true, false, 2 * n⟩
            | some false =>
              -- low score: posts stay None, record still returned
              some ⟨some ⟨j, none⟩, [mkWrite call.row j], true, true, true, false, 2 * n⟩
            | some true =>
              match jIndex j ("pain_point"), jIndex j ("transcript_summary") with
              | some _, some _ =>
                some ⟨some ⟨j, robust_generate_content env.contentGen⟩,
                      [mkWrite call.row j], true, true, true, true, 2 * n⟩
              | _, _ =>
                -- KeyError in the f-string prompt, after the write
                some ⟨none, [mkWrite call.row j], true, true, true, false, 2 * n⟩
          | _ =>
            -- truthy non-dict: `.get` raises AttributeError before the write
            some ⟨none, [], true, true, true, false, 2 * n⟩

/-! ### Top-level run (`main`, lines 184-224) -/

/-- Truthiness of `result['posts']` in `if result and result['posts']`. -/
def postsTruthy (posts : Option Json) : Bool :=
  match posts with
  | some p => jsonTruthy p
  | none => false

/-- Python iterability as used by the comprehensions in lines 207-209 (the
f-string formats each element, so only iterability can raise). -/
def pyIterOk : Json → Bool
  | Json.arr _ => true
  | Json.str _ => true
  | Json.obj _ => true
  | _ => false

/-- Lines 205-218: building the Slack message succeeds iff the bracket
lookups on the analysis and posts dicts succeed and the three post fields
are iterable; a failure is an uncaught raise that crashes the run. -/
def buildNotifyOk (analysis posts : Json) : Bool :=
  (jIndex analysis ("pain_point")).isSome &&
  (jIndex analysis ("score")).isSome &&
  (match jIndex posts ("hooks") with | some h => pyIterOk h | none => false) &&
  (match jIndex posts ("english_slides") with | some h => pyIterOk h | none => false) &&
  (match jIndex posts ("tamil_slides") with | some h => pyIterOk h | none => false)

/-- Observable trace of the `main` loop: the workflow trace per processed
call in order, the rows notified to Slack, and whether the run crashed on an
uncaught notification-building raise or hung in a polling loop. -/
structure MainResult where
  processed : List (Nat × WorkflowResult)
  notified : List Nat
  crashed : Bool
  diverged : Bool

/-- Lines 195-223: the `for call in calls` loop with its
`processed_count >= target_posts: break` guard; `count` is
`processed_count`, incremented only after a successful notification. -/
def mainLoop (envOf : Nat → WorkflowEnv) (fuel : Nat) (target : Int) :
    Nat → List PendingCall → MainResult
  | _, [] => ⟨[], [], false, false⟩
  | count, c :: rest =>
    if (count : Int) ≥ target then ⟨[], [], false, false⟩
    else
      match process_call_workflow (envOf c.row) c fuel with
      | none => ⟨[], [], false, true⟩
      | some res =>
        match res.result with
        | some rec =>
          match rec.posts with
          | some p =>
            if jsonTruthy p then
              if buildNotifyOk rec.analysis p then
                let out := mainLoop envOf fuel target (count + 1) rest
                ⟨(c.row, res) :: out.processed, c.row :: out.notified,
                 out.crashed, out.diverged⟩
              else ⟨[(c.row, res)], [], true, false⟩
            else
              let out := mainLoop envOf fuel target count rest
              ⟨(c.row, res) :: out.processed, out.notified, out.crashed, out.diverged⟩
          | none =>
            let out := mainLoop envOf fuel target count rest
            ⟨(c.row, res) :: out.processed, out.notified, out.crashed, out.diverged⟩
        | none =>
          let out := mainLoop envOf fuel target count rest
          ⟨(c.row, res) :: out.processed, out.notified, out.crashed, out.diverged⟩

/-- Lines 184-224: `main` — read settings, scan the queue, run the loop. -/
def mainRun (settingsFetch : Except Unit (List (List String)))
    (callsRows : List (List String)) (envOf : Nat → WorkflowEnv) (fuel : Nat) :
    Int × List PendingCall × MainResult :=
  let target := get_settings settingsFetch
  let calls := get_pending_calls callsRows
  (target, calls, mainLoop envOf fuel target 0 calls)

/-! ### Definitions written from the specification words (for refinement
claims: these are compared against the source-derived definitions above) -/

/-- An analyzed record as the spec Ranker sees it: scan position and score. -/
structure AnalyzedRec where
  row : Nat
  score : Int
deriving DecidableEq

/-- Stable insertion for the descending-by-score sort: an element moves past
another only when its score is strictly larger, so original order is kept
for ties. -/
def insertDesc (a : AnalyzedRec) : List AnalyzedRec → List AnalyzedRec
  | [] => [a]
  | b :: l => if a.score ≥ b.score then a :: b :: l else b :: insertDesc a l

/-- Stable descending sort by score (insertion sort). -/
def sortScoreDesc : List AnalyzedRec → List AnalyzedRec
  | [] => []
  | a :: l => insertDesc a (sortScoreDesc l)

/-- Modelled from the spec (§4.5 Ranker): sort the analyzed records by score
descending, stable with respect to ties, and take the first
`targetPostCount`. -/
def rankerSpec (l : List AnalyzedRec) (target : Nat) : List AnalyzedRec :=
  (sortScoreDesc l).take target

/-- Substring from the first opening brace to the last closing brace,
inclusive, as the spec describes for JSON extraction. -/
def betweenBraces (t : String) : Option String :=
  let cs := t.data
  match cs.findIdx? (fun c => c = lbrace) with
  | none => none
  | some i =>
    match cs.reverse.findIdx? (fun c => c = rbrace) with
    | none => none
    | some rj =>
      let j := cs.length - 1 - rj
      if i ≤ j then some (String.mk ((cs.drop i).take (j + 1 - i))) else none

/-- Modelled from the spec (§4.3): strip the Markdown fencing markers, take
the substring between the first `\x7b` and the last `\x7d`, then parse as
JSON. -/
def extract_spec (t : String) : Option Json :=
  match betweenBraces (cleanText t) with
  | some s => json_loads s
  | none => none

/-- Bool form of "the duration cell parses and exceeds 300". -/
def durOver300 (row : List String) : Bool :=
  match pyFloat (row.getD 2 "") with
  | some d => decide (d > 300)
  | none => false

/-- Written from the words of claim C7: the rows whose status field equals
`"Pending"` and whose duration exceeds 300, as `{rowIndex, audioUrl}` pairs
in original order, `rowIndex` 1-based counting the header row. -/
def spec_scan (rows : List (List String)) : List PendingCall :=
  rows.enum.filterMap (fun p =>
    if p.2.length > 3 ∧ p.2.getD 3 "" = "Pending" ∧ durOver300 p.2 = true then
      some ⟨p.1 + 1, p.2.getD 1 ""⟩
    else none)

/-- The scanner with the dead `else 600` default removed: the duration cell
must be present and parse.  Used to state that the default never fires. -/
def scanStrictGo : Nat → List (List String) → List PendingCall
  | _, [] => []
  | i, row :: rest =>
    let tail := scanStrictGo (i + 1) rest
    if row.length > 3 ∧ row.getD 3 "" = "Pending" then
      match pyFloat (row.getD 2 "") with
      | some d => if d > 300 then ⟨i + 1, row.getD 1 ""⟩ :: tail else tail
      | none => tail
    else tail

/-- The scanner without the unreachable missing-duration default. -/
def get_pending_calls_strict (rows : List (List String)) : List PendingCall :=
  scanStrictGo 0 rows


/-! ### Concrete model-response fixtures used by several claims -/

/-- A fenced model reply, the spec's round-trip example. -/
def fencedScore7 : String := "```json\n\x7b\"score\":7\x7d\n```"

/-- A reply with the JSON object surrounded by prose and no fences. -/
def proseJson : String := "Sure! \x7b\"score\": 7\x7d Thanks!"

/-- An analysis reply with a low score. -/
def analysisLow : String :=
  "\x7b\"score\":4,\"pain_point\":\"p\",\"transcript_summary\":\"t\"\x7d"

/-- An analysis reply with a high score. -/
def analysisHigh : String :=
  "\x7b\"score\":8,\"pain_point\":\"p\",\"transcript_summary\":\"t\"\x7d"

/-- An analysis reply whose only field is a high score. -/
def scoreOnly7 : String := "\x7b\"score\":7\x7d"

/-- A well-formed content-generation reply. -/
def postsGood : String :=
  "\x7b\"hooks\":[\"A\",\"B\",\"C\"],\"english_slides\":[\"E1\",\"E2\",\"E3\"],\"tamil_slides\":[\"T1\",\"T2\",\"T3\"]\x7d"

/-- Parsed form of `analysisLow`. -/
def jLow : Json :=
  Json.obj [("score", Json.num 4), ("pain_point", Json.str ("p")),
            ("transcript_summary", Json.str ("t"))]

/-- Parsed form of `analysisHigh`. -/
def jHigh : Json :=
  Json.obj [("score", Json.num 8), ("pain_point", Json.str ("p")),
            ("transcript_summary", Json.str ("t"))]

/-- Parsed form of `postsGood`. -/
def jPosts : Json :=
  Json.obj [("hooks", Json.arr [Json.str ("A"), Json.str ("B"), Json.str ("C")]),
            ("english_slides", Json.arr [Json.str ("E1"), Json.str ("E2"), Json.str ("E3")]),
            ("tamil_slides", Json.arr [Json.str ("T1"), Json.str ("T2"), Json.str ("T3")])]

/-- Environment in which the audio download returns HTTP 404. -/
def envBad : WorkflowEnv :=
  ⟨404, true, fun _ => "ACTIVE", fun _ => none, fun _ => none⟩

/-- Environment in which every model call raises. -/
def envAllFail : WorkflowEnv :=
  ⟨200, true, fun _ => "ACTIVE", fun _ => none, fun _ => none⟩

/-- Environment whose uploaded asset ends in state FAILED after one
PROCESSING poll, and whose first analysis attempt succeeds. -/
def envFailedAsset : WorkflowEnv :=
  ⟨200, true, fun i => if i = 0 then ("PROCESSING") else ("FAILED"),
   fun m => if m = "gemini-1.5-flash" then some analysisLow else none,
   fun _ => none⟩

/-- Environment with a successful low-score analysis. -/
def envLow : WorkflowEnv :=
  ⟨200, true, fun _ => "ACTIVE",
   fun m => if m = "gemini-1.5-flash" then some analysisLow else none,
   fun _ => none⟩

/-- Environment whose analysis reply parses but contains only the score. -/
def envScoreOnly : WorkflowEnv :=
  ⟨200, true, fun _ => "ACTIVE",
   fun m => if m = "gemini-1.5-flash" then some scoreOnly7 else none,
   fun _ => none⟩

/-- Environment with a successful high-score analysis and good posts. -/
def envFull : WorkflowEnv :=
  ⟨200, true, fun _ => "ACTIVE",
   fun m => if m = "gemini-1.5-flash" then some analysisHigh else none,
   fun m => if m = "gemini-1.5-flash" then some postsGood else none⟩

/-! ### Claim C10 — Settings Reader -/

/-- C10: the Settings Reader returns the parsed integer from the fixed cell
range, and every retrieval or parse failure — a raising fetch, an empty
range, a missing cell, a non-integer cell value — yields the default 2; the
function is total, so the run always continues. -/
theorem C10_settings_reader_default :
    (∀ u : Unit, get_settings (Except.error u) = 2) ∧
    get_settings (Except.ok []) = 2 ∧
    (∀ rest, get_settings (Except.ok ([] :: rest)) = 2) ∧
    (∀ c0 r0 rest n, pyInt c0 = some n →
      get_settings (Except.ok ((c0 :: r0) :: rest)) = n) ∧
    (∀ c0 r0 rest, pyInt c0 = none →
      get_settings (Except.ok ((c0 :: r0) :: rest)) = 2) := by
  refine ⟨fun u => rfl, rfl, fun rest => rfl, ?_, ?_⟩
  · intro c0 r0 rest n h
    simp [get_settings, h]
  · intro c0 r0 rest h
    simp [get_settings, h]

/-- Witness for C10 at concrete cells: `Settings!B1 = "7"` gives 7, and a
non-integer cell gives the default 2. -/
theorem C10_settings_reader_default_witness :
    get_settings (Except.ok [["7"], ["x"]]) = 7 ∧
    get_settings (Except.ok [["abc"]]) = 2 :=
  ⟨C10_settings_reader_default.2.2.2.1 ("7") [] [[("x")]] 7 (by decide),
   C10_settings_reader_default.2.2.2.2 ("abc") [] [] (by decide)⟩

/-! ### Claims C4 and C7 — Queue Scanner -/

/-- Helper: the scanner loop never takes the missing-duration default for a
row that passed the status test, because more than 3 cells implies more than
2 cells; so it agrees with the variant that requires a parsable duration. -/
theorem scanGo_eq_strict : ∀ (rows : List (List String)) (i : Nat),
    scanGo i rows = scanStrictGo i rows := by
  intro rows
  induction rows with
  | nil => intro i; rfl
  | cons row rest ih =>
    intro i
    simp only [scanGo, scanStrictGo, ih]
    by_cases h1 : row.length > 3 ∧ row.getD 3 "" = "Pending"
    · have h2 : row.length > 2 := by omega
      rw [if_pos h1, if_pos h1, if_pos h2]
    · rw [if_neg h1, if_neg h1]

/-- C4 counterexample: the concrete Pending row whose duration cell is
blank (the sheet has no duration value there).  The claim predicts the 600
default makes the scanner include it; the code's `float("")` raises and the
row is silently skipped. -/
theorem C4_counterexample :
    get_pending_calls [["id", "url", "", "Pending"]] = [] ∧
    pyFloat ("") = none := by
  exact ⟨rfl, rfl⟩

/-- C4 amended: a row whose status field (4th cell) equals "Pending"
necessarily has its duration cell present (more than 3 cells implies more
than 2), so the 600 default is dead code: the scanner behaves exactly like
the variant that requires the duration value to parse and exceed 300, and a
Pending row with a blank or unparsable duration value is silently
skipped. -/
theorem C4_pending_duration_default_dead :
    ∀ rows, get_pending_calls rows = get_pending_calls_strict rows := by
  intro rows
  exact scanGo_eq_strict rows 0

/-- Helper: the scanner loop is the index-decorated filter the spec
describes, starting at any index. -/
theorem scanGo_eq_filterMap : ∀ (rows : List (List String)) (i : Nat),
    scanGo i rows = (rows.enumFrom i).filterMap (fun p =>
      if p.2.length > 3 ∧ p.2.getD 3 "" = "Pending" ∧ durOver300 p.2 = true then
        some ⟨p.1 + 1, p.2.getD 1 ""⟩
      else none) := by
  intro rows
  induction rows with
  | nil => intro i; rfl
  | cons row rest ih =>
    intro i
    simp only [scanGo, List.enumFrom, List.filterMap_cons, ih]
    by_cases h1 : row.length > 3 ∧ row.getD 3 "" = "Pending"
    · have h2 : row.length > 2 := by have := h1.1; omega
      rw [if_pos h1, if_pos h2]
      cases hf : pyFloat (row.getD 2 "") with
      | none =>
        have hdur : durOver300 row = false := by unfold durOver300; rw [hf]
        rw [if_neg (fun hc => by simp [hdur] at hc)]
      | some d =>
        dsimp only
        by_cases hd : d > 300
        · have hdur : durOver300 row = true := by
            unfold durOver300; rw [hf]; simpa using hd
          rw [if_pos hd, if_pos ⟨h1.1, h1.2, hdur⟩]
        · have hdur : durOver300 row = false := by
            unfold durOver300; rw [hf]; simpa using hd
          rw [if_neg hd, if_neg (fun hc => by simp [hdur] at hc)]
    · rw [if_neg h1, if_neg (fun hc => h1 ⟨hc.1, hc.2.1⟩)]

/-- C7: the Queue Scanner returns exactly the rows whose status field equals
"Pending" and whose duration value exceeds 300, as `{rowIndex, audioUrl}`
pairs in original sheet order (a filter never re-orders), with `rowIndex`
1-based counting the header row (`enumerate` index plus 1); every row whose
status differs from "Pending" is excluded. -/
theorem C7_scanner_exact :
    ∀ rows, get_pending_calls rows = spec_scan rows := by
  intro rows
  have h := scanGo_eq_filterMap rows 0
  simpa [get_pending_calls, spec_scan, List.enum] using h

/-! ### Claim C3 — JSON extraction from model text -/

/-- C3 counterexample: a reply whose JSON object is surrounded by prose.
The claim predicts the extraction takes the substring between the first
opening and last closing brace and therefore still parses it (as the
spec-modelled `extract_spec` indeed does); the code only strips fence
markers and trims, so `json.loads` fails on the prose. -/
theorem C3_counterexample :
    json_loads (cleanText proseJson) = none ∧
    extract_spec proseJson = some (Json.obj [("score", Json.num 7)]) := by
  exact ⟨rfl, rfl⟩

/-- C3 amended: the extraction step only removes the fence markers
"```json" and "```" and strips surrounding whitespace, then parses the
entire remainder as JSON.  Fenced JSON round-trips — the spec's example
yields `{"score":7}` — but surrounding prose makes the parse fail, and the
fallback loop then falls through to the next model. -/
theorem C3_extraction_fences_only :
    json_loads (cleanText fencedScore7) = some (Json.obj [("score", Json.num 7)]) ∧
    robust_generate_content (fun m =>
      if m = "gemini-1.5-flash" then some proseJson else some fencedScore7) =
      some (Json.obj [("score", Json.num 7)]) := by
  exact ⟨rfl, rfl⟩


/-! ### Claim C9 — temp-file cleanup and download-failure skip -/

/-- C9: (1) every terminating run of the per-call workflow that created the
temp file removes it before returning — the `finally` covers every exit
path, including the caught exceptions; (2) a non-success download status
aborts just the record: the workflow returns `None` with no write, before
the temp file even exists; (3) a record whose workflow returned `None` is a
skip, not a crash: the main loop records it and continues with the
remaining queue unchanged. -/
theorem C9_temp_cleanup_download_skip :
    ∀ env call fuel res, process_call_workflow env call fuel = some res →
      ((res.tmpCreated = true → res.tmpRemoved = true) ∧
       (env.downloadStatus ≠ 200 →
         res.result = none ∧ res.writes = [] ∧ res.tmpCreated = false) ∧
       (∀ (envOf : Nat → WorkflowEnv) (target : Int) (count : Nat)
           (rest : List PendingCall),
         envOf call.row = env → res.result = none → ¬((count : Int) ≥ target) →
         mainLoop envOf fuel target count (call :: rest) =
           ⟨(call.row, res) :: (mainLoop envOf fuel target count rest).processed,
            (mainLoop envOf fuel target count rest).notified,
            (mainLoop envOf fuel target count rest).crashed,
            (mainLoop envOf fuel target count rest).diverged⟩)) := by
  intro env call fuel res h
  have hcont : ∀ (envOf : Nat → WorkflowEnv) (target : Int) (count : Nat)
      (rest : List PendingCall),
      envOf call.row = env → res.result = none → ¬((count : Int) ≥ target) →
      mainLoop envOf fuel target count (call :: rest) =
        ⟨(call.row, res) :: (mainLoop envOf fuel target count rest).processed,
         (mainLoop envOf fuel target count rest).notified,
         (mainLoop envOf fuel target count rest).crashed,
         (mainLoop envOf fuel target count rest).diverged⟩ := by
    intro envOf target count rest henv hres hcnt
    simp only [mainLoop]
    rw [if_neg hcnt, henv, h]
    dsimp only
    rw [hres]
  have h12 : (res.tmpCreated = true → res.tmpRemoved = true) ∧
      (env.downloadStatus ≠ 200 →
        res.result = none ∧ res.writes = [] ∧ res.tmpCreated = false) := by
    unfold process_call_workflow at h
    repeat' split at h
    all_goals try exact Option.noConfusion h
    all_goals injection h with h2
    all_goals subst h2
    all_goals exact ⟨fun hc => by simp_all, fun hne => by simp_all⟩
  exact ⟨h12.1, h12.2, hcont⟩

/-- Witness for C9 at a concrete failing download (HTTP 404): the record is
skipped with no temp file, no write, and the loop goes on. -/
theorem C9_temp_cleanup_download_skip_witness :
    (((⟨none, [], false, false, false, false, 0⟩ : WorkflowResult).tmpCreated = true →
      (⟨none, [], false, false, false, false, 0⟩ : WorkflowResult).tmpRemoved = true) ∧
     (envBad.downloadStatus ≠ 200 →
       (⟨none, [], false, false, false, false, 0⟩ : WorkflowResult).result = none ∧
       (⟨none, [], false, false, false, false, 0⟩ : WorkflowResult).writes = [] ∧
       (⟨none, [], false, false, false, false, 0⟩ : WorkflowResult).tmpCreated = false) ∧
     (∀ (envOf : Nat → WorkflowEnv) (target : Int) (count : Nat)
         (rest : List PendingCall),
       envOf (1 : Nat) = envBad →
       (⟨none, [], false, false, false, false, 0⟩ : WorkflowResult).result = none →
       ¬((count : Int) ≥ target) →
       mainLoop envOf 3 target count (⟨1, "u"⟩ :: rest) =
         ⟨((1 : Nat), (⟨none, [], false, false, false, false, 0⟩ : WorkflowResult)) ::
            (mainLoop envOf 3 target count rest).processed,
          (mainLoop envOf 3 target count rest).notified,
          (mainLoop envOf 3 target count rest).crashed,
          (mainLoop envOf 3 target count rest).diverged⟩)) :=
  C9_temp_cleanup_download_skip envBad ⟨1, "u"⟩ 3
    ⟨none, [], false, false, false, false, 0⟩ rfl

/-! ### Claim C8 — write-back shape -/

/-- C8: whenever the analysis step succeeded (the generator returned a
truthy dict), the workflow issues exactly one sheet write — range
`Calls!D{row}:F{row}`, values `["Processed", score, summary]` with the
`.get` defaults — and touches nothing else, regardless of what the rest of
the record's processing does. -/
theorem C8_write_back_exact :
    ∀ env call fuel res j,
      process_call_workflow env call fuel = some res →
      res.analysisAttempted = true →
      robust_generate_content env.analysisGen = some j →
      jsonTruthy j = true → jIsObj j = true →
      res.writes = [mkWrite call.row j] := by
  intro env call fuel res j h ha hr ht hobj
  unfold process_call_workflow at h
  repeat' split at h
  all_goals try exact Option.noConfusion h
  all_goals injection h with h2
  all_goals subst h2
  all_goals simp_all [jIsObj]

/-- Witness for C8: the concrete high-score run writes exactly
`["Processed", 8, "t"]` to `Calls!D1:F1`. -/
theorem C8_write_back_exact_witness :
    (⟨some ⟨jHigh, some jPosts⟩, [mkWrite 1 jHigh],
      true, true, true, true, 0⟩ : WorkflowResult).writes = [mkWrite 1 jHigh] :=
  C8_write_back_exact envFull ⟨1, "u"⟩ 3
    ⟨some ⟨jHigh, some jPosts⟩, [mkWrite 1 jHigh], true, true, true, true, 0⟩
    jHigh rfl rfl rfl rfl rfl

/-! ### Claim C2 — behaviour when every model fails -/

/-- C2 counterexample: with every model call raising, the generator returns
`None` — not the degraded `{score: 0, transcriptSummary: "Error",
painPoint: "Error"}` dict — and the workflow then skips the record with no
sheet write at all, so the row is not marked Processed. -/
theorem C2_counterexample :
    robust_generate_content (fun _ => none) = none ∧
    process_call_workflow envAllFail ⟨1, "u"⟩ 3 =
      some ⟨none, [], true, true, true, false, 0⟩ := by
  exact ⟨rfl, rfl⟩

/-- C2 amended: if the model call raises for every identifier in the
fallback list, `robust_generate_content` returns `None`; the workflow then
returns `None` for that record with no write-back (the row keeps its old
status), and control returns normally, so the run proceeds to the next
record without raising. -/
theorem C2_all_models_fail_skips_record :
    (∀ gen : String → Option String, (∀ m ∈ models_to_try, gen m = none) →
      robust_generate_content gen = none) ∧
    (∀ env call fuel res, process_call_workflow env call fuel = some res →
      res.analysisAttempted = true →
      robust_generate_content env.analysisGen = none →
      res.result = none ∧ res.writes = []) := by
  constructor
  · have go : ∀ (l : List String) (gen : String → Option String),
        (∀ m ∈ l, gen m = none) → robustGo gen l = none := by
      intro l
      induction l with
      | nil => intro gen h; rfl
      | cons m rest ih =>
        intro gen h
        have hm : gen m = none := h m (by simp)
        simp only [robustGo, hm]
        exact ih gen (fun x hx => h x (by simp [hx]))
    intro gen h
    exact go models_to_try gen h
  · intro env call fuel res h ha hr
    unfold process_call_workflow at h
    repeat' split at h
    all_goals try exact Option.noConfusion h
    all_goals injection h with h2
    all_goals subst h2
    all_goals simp_all

/-- Witness for C2 at the concrete all-raising environment. -/
theorem C2_all_models_fail_skips_record_witness :
    robust_generate_content (fun _ => none) = none ∧
    ((⟨none, [], true, true, true, false, 0⟩ : WorkflowResult).result = none ∧
     (⟨none, [], true, true, true, false, 0⟩ : WorkflowResult).writes = []) :=
  ⟨C2_all_models_fail_skips_record.1 (fun _ => none) (fun _ _ => rfl),
   C2_all_models_fail_skips_record.2 envAllFail ⟨1, "u"⟩ 3
     ⟨none, [], true, true, true, false, 0⟩ rfl rfl
     (C2_all_models_fail_skips_record.1 (fun _ => none) (fun _ _ => rfl))⟩

/-! ### Claim C6 — polling loop and FAILED assets -/

/-- Helper: the polling loop stops exactly at the first non-PROCESSING
observation, whatever its index, given enough fuel (the source loop has no
bound of its own). -/
theorem pollLoop_stop (states : Nat → String) :
    ∀ (n fuel i : Nat), n < fuel →
      (∀ m, m < n → states (i + m) = "PROCESSING") →
      states (i + n) ≠ "PROCESSING" →
      pollLoop states fuel i = some (i + n) := by
  intro n
  induction n with
  | zero =>
    intro fuel i hf hpre hstop
    cases fuel with
    | zero => omega
    | succ f =>
      simp only [pollLoop]
      rw [if_neg (by simpa using hstop)]
      simp
  | succ k ih =>
    intro fuel i hf hpre hstop
    cases fuel with
    | zero => omega
    | succ f =>
      simp only [pollLoop]
      have h0 : states i = "PROCESSING" := by simpa using hpre 0 (by omega)
      rw [if_pos h0]
      have e : i + (k + 1) = i + 1 + k := by omega
      rw [e]
      rw [e] at hstop
      exact ih f (i + 1) (by omega)
        (fun m hm => by
          have h := hpre (m + 1) (by omega)
          have e2 : i + (m + 1) = i + 1 + m := by omega
          rwa [e2] at h)
        hstop

/-- C6 counterexample: an asset that goes PROCESSING → FAILED.  The claim
predicts the analyzer aborts the record with an error outcome and issues no
analysis prompt; the code has no FAILED check — the loop merely exits, the
analysis prompt is issued anyway, and the record is even written back as
Processed. -/
theorem C6_counterexample :
    envFailedAsset.fileStates 1 = "FAILED" ∧
    (process_call_workflow envFailedAsset ⟨1, "u"⟩ 5).map
      (fun r => (r.analysisAttempted, r.writes.length, r.pollSleepSeconds)) =
      some (true, 1, 2) := by
  exact ⟨rfl, rfl⟩

/-- C6 amended: polling repeats at a fixed 2-second interval while the
state is PROCESSING, with no upper bound on attempts (any number n of
leading PROCESSING observations is waited out, sleeping 2·n seconds); the
first non-PROCESSING observation — ACTIVE or FAILED alike — ends the wait,
and the analysis prompt is issued regardless of that final state: no abort
happens on FAILED. -/
theorem C6_poll_unbounded_no_failed_check :
    ∀ env call fuel n, env.downloadStatus = 200 → env.uploadOk = true →
      (∀ m, m < n → env.fileStates m = "PROCESSING") →
      env.fileStates n ≠ "PROCESSING" →
      n < fuel →
      ∃ res, process_call_workflow env call fuel = some res ∧
        res.pollSleepSeconds = 2 * n ∧ res.analysisAttempted = true := by
  intro env call fuel n hd hu hpre hstop hfuel
  have hpoll : pollLoop env.fileStates fuel 0 = some n := by
    have h := pollLoop_stop env.fileStates n fuel 0 hfuel
      (fun m hm => by simpa using hpre m hm) (by simpa using hstop)
    simpa using h
  unfold process_call_workflow
  rw [if_neg (by simp [hd]), if_neg (by simp [hu]), hpoll]
  dsimp only
  rcases hr : robust_generate_content env.analysisGen with _ | j
  · exact ⟨_, rfl, rfl, rfl⟩
  · dsimp only
    by_cases htr : jsonTruthy j = false
    · rw [if_pos htr]
      exact ⟨_, rfl, rfl, rfl⟩
    · rw [if_neg htr]
      cases j with
      | obj l =>
        rcases hg : pyGeInt (jGet (Json.obj l) ("score") (Json.num 0)) 6 with _ | b
        · exact ⟨_, rfl, rfl, rfl⟩
        · cases b
          · exact ⟨_, rfl, rfl, rfl⟩
          · rcases hp : jIndex (Json.obj l) ("pain_point") with _ | v1 <;>
              rcases hq : jIndex (Json.obj l) ("transcript_summary") with _ | v2 <;>
                exact ⟨_, rfl, rfl, rfl⟩
      | null => exact ⟨_, rfl, rfl, rfl⟩
      | bool b => exact ⟨_, rfl, rfl, rfl⟩
      | num m => exact ⟨_, rfl, rfl, rfl⟩
      | str s => exact ⟨_, rfl, rfl, rfl⟩
      | arr a => exact ⟨_, rfl, rfl, rfl⟩

/-- Witness for C6 at the concrete FAILED-asset environment: one PROCESSING
observation, then FAILED; 2 seconds slept, analysis still attempted. -/
theorem C6_poll_unbounded_no_failed_check_witness :
    ∃ res, process_call_workflow envFailedAsset ⟨1, "u"⟩ 5 = some res ∧
      res.pollSleepSeconds = 2 * 1 ∧ res.analysisAttempted = true :=
  C6_poll_unbounded_no_failed_check envFailedAsset ⟨1, "u"⟩ 5 1 rfl rfl
    (fun m hm => by
      have : m = 0 := by omega
      subst this
      rfl)
    (by decide)
    (by omega)


/-! ### Helper lemmas about the main loop -/

/-- Helper: a parsed value that is falsy cannot satisfy the content-gate
condition (score field comparing ≥ 6 and both prompt fields present). -/
theorem falsy_no_content_cond : ∀ j : Json, jsonTruthy j = false →
    ¬(pyGeInt (jGet j ("score") (Json.num 0)) 6 = some true ∧
      jIndex j ("pain_point") ≠ none ∧ jIndex j ("transcript_summary") ≠ none) := by
  intro j ht hc
  cases j with
  | null => simp [jGet, pyGeInt] at hc
  | bool b => cases b
              · simp [jGet, pyGeInt] at hc
              · simp [jsonTruthy] at ht
  | num n => simp [jGet, pyGeInt] at hc
  | str s => simp [jIndex] at hc
  | arr a => simp [jIndex] at hc
  | obj l =>
    have : l = [] := by simpa [jsonTruthy] using ht
    subst this
    simp [jGet, jsonLookup, pyGeInt] at hc

/-- Helper: bracket access on a non-dict value raises (is `none`). -/
theorem notObj_jIndex_none : ∀ (j : Json) (k : String),
    jIsObj j = false → jIndex j k = none := by
  intro j k h
  cases j <;> simp_all [jIsObj, jIndex]

/-- Helper: a workflow result whose record carries posts comes from the
content-generation branch, so the content request was attempted. -/
theorem workflow_posts_attempted :
    ∀ env call fuel res rec p, process_call_workflow env call fuel = some res →
      res.result = some rec → rec.posts = some p → res.contentAttempted = true := by
  intro env call fuel res rec p h hres hp
  unfold process_call_workflow at h
  repeat' split at h
  all_goals try exact Option.noConfusion h
  all_goals injection h with h2
  all_goals subst h2
  all_goals dsimp only at hres
  all_goals try exact Option.noConfusion hres
  all_goals injection hres with hres2
  all_goals subst hres2
  all_goals simp_all

/-- Helper: a workflow run that attempted content generation parsed a score
comparing ≥ 6, and its returned posts are the content-generator output. -/
theorem workflow_attempted_score :
    ∀ env call fuel res, process_call_workflow env call fuel = some res →
      res.contentAttempted = true →
      ∃ j, res.result = some ⟨j, robust_generate_content env.contentGen⟩ ∧
        pyGeInt (jGet j ("score") (Json.num 0)) 6 = some true := by
  intro env call fuel res h hc
  unfold process_call_workflow at h
  repeat' split at h
  all_goals try exact Option.noConfusion h
  all_goals injection h with h2
  all_goals subst h2
  all_goals try (exfalso; simp_all; done)
  all_goals exact ⟨_, rfl, by assumption⟩

/-- Helper: every processed entry of the main loop is the workflow output
for one of the scanned calls. -/
theorem mainLoop_processed_from_workflow :
    ∀ (calls : List PendingCall) (envOf : Nat → WorkflowEnv) (fuel : Nat)
      (target : Int) (count : Nat) (pr : Nat × WorkflowResult),
      pr ∈ (mainLoop envOf fuel target count calls).processed →
      ∃ c, c ∈ calls ∧ pr.1 = c.row ∧
        process_call_workflow (envOf c.row) c fuel = some pr.2 := by
  intro calls
  induction calls with
  | nil =>
    intro envOf fuel target count pr hmem
    simp [mainLoop] at hmem
  | cons c rest ih =>
    intro envOf fuel target count pr hmem
    simp only [mainLoop] at hmem
    by_cases hcnt : (count : Int) ≥ target
    · rw [if_pos hcnt] at hmem
      simp at hmem
    · rw [if_neg hcnt] at hmem
      cases hw : process_call_workflow (envOf c.row) c fuel with
      | none =>
        rw [hw] at hmem
        simp at hmem
      | some res =>
        rw [hw] at hmem
        dsimp only at hmem
        cases hres : res.result with
        | none =>
          rw [hres] at hmem
          dsimp only at hmem
          rcases List.mem_cons.mp hmem with hpr | hpr
          · subst hpr
            exact ⟨c, by simp, rfl, hw⟩
          · obtain ⟨c2, hc2, h1, h2⟩ := ih envOf fuel target count pr hpr
            exact ⟨c2, by simp [hc2], h1, h2⟩
        | some rec =>
          rw [hres] at hmem
          dsimp only at hmem
          cases hp : rec.posts with
          | none =>
            rw [hp] at hmem
            dsimp only at hmem
            rcases List.mem_cons.mp hmem with hpr | hpr
            · subst hpr
              exact ⟨c, by simp, rfl, hw⟩
            · obtain ⟨c2, hc2, h1, h2⟩ := ih envOf fuel target count pr hpr
              exact ⟨c2, by simp [hc2], h1, h2⟩
          | some p =>
            rw [hp] at hmem
            dsimp only at hmem
            by_cases ht : jsonTruthy p = true
            · rw [if_pos ht] at hmem
              by_cases hb : buildNotifyOk rec.analysis p = true
              · rw [if_pos hb] at hmem
                dsimp only at hmem
                rcases List.mem_cons.mp hmem with hpr | hpr
                · subst hpr
                  exact ⟨c, by simp, rfl, hw⟩
                · obtain ⟨c2, hc2, h1, h2⟩ := ih envOf fuel target (count + 1) pr hpr
                  exact ⟨c2, by simp [hc2], h1, h2⟩
              · rw [if_neg hb] at hmem
                dsimp only at hmem
                simp only [List.mem_singleton] at hmem
                subst hmem
                exact ⟨c, by simp, rfl, hw⟩
            · rw [if_neg ht] at hmem
              dsimp only at hmem
              rcases List.mem_cons.mp hmem with hpr | hpr
              · subst hpr
                exact ⟨c, by simp, rfl, hw⟩
              · obtain ⟨c2, hc2, h1, h2⟩ := ih envOf fuel target count pr hpr
                exact ⟨c2, by simp [hc2], h1, h2⟩

/-- Helper: every notified row has a processed entry whose record carries
truthy posts. -/
theorem mainLoop_notified_has_posts :
    ∀ (calls : List PendingCall) (envOf : Nat → WorkflowEnv) (fuel : Nat)
      (target : Int) (count : Nat) (r : Nat),
      r ∈ (mainLoop envOf fuel target count calls).notified →
      ∃ res rec p, (r, res) ∈ (mainLoop envOf fuel target count calls).processed ∧
        res.result = some rec ∧ rec.posts = some p := by
  intro calls
  induction calls with
  | nil =>
    intro envOf fuel target count r hmem
    simp [mainLoop] at hmem
  | cons c rest ih =>
    intro envOf fuel target count r hmem
    simp only [mainLoop] at hmem ⊢
    by_cases hcnt : (count : Int) ≥ target
    · rw [if_pos hcnt] at hmem ⊢
      simp at hmem
    · rw [if_neg hcnt] at hmem ⊢
      cases hw : process_call_workflow (envOf c.row) c fuel with
      | none =>
        rw [hw] at hmem
        simp at hmem
      | some res =>
        rw [hw] at hmem
        dsimp only at hmem ⊢
        cases hres : res.result with
        | none =>
          rw [hres] at hmem
          dsimp only at hmem ⊢
          obtain ⟨res2, rec2, p2, hm, h1, h2⟩ := ih envOf fuel target count r hmem
          exact ⟨res2, rec2, p2, List.mem_cons_of_mem _ hm, h1, h2⟩
        | some rec =>
          rw [hres] at hmem
          dsimp only at hmem ⊢
          cases hp : rec.posts with
          | none =>
            rw [hp] at hmem
            dsimp only at hmem ⊢
            obtain ⟨res2, rec2, p2, hm, h1, h2⟩ := ih envOf fuel target count r hmem
            exact ⟨res2, rec2, p2, List.mem_cons_of_mem _ hm, h1, h2⟩
          | some p =>
            rw [hp] at hmem
            dsimp only at hmem ⊢
            by_cases ht : jsonTruthy p = true
            · rw [if_pos ht] at hmem ⊢
              by_cases hb : buildNotifyOk rec.analysis p = true
              · rw [if_pos hb] at hmem ⊢
                dsimp only at hmem ⊢
                rcases List.mem_cons.mp hmem with hr | hr
                · subst hr
                  exact ⟨res, rec, p, by simp, hres, hp⟩
                · obtain ⟨res2, rec2, p2, hm, h1, h2⟩ :=
                    ih envOf fuel target (count + 1) r hr
                  exact ⟨res2, rec2, p2, List.mem_cons_of_mem _ hm, h1, h2⟩
              · rw [if_neg hb] at hmem ⊢
                simp at hmem
            · rw [if_neg ht] at hmem ⊢
              dsimp only at hmem ⊢
              obtain ⟨res2, rec2, p2, hm, h1, h2⟩ := ih envOf fuel target count r hmem
              exact ⟨res2, rec2, p2, List.mem_cons_of_mem _ hm, h1, h2⟩

/-- Helper: the processed rows form a prefix of the scanned queue in scan
order — the loop walks the queue front to back and stops. -/
theorem mainLoop_processed_take :
    ∀ (calls : List PendingCall) (envOf : Nat → WorkflowEnv) (fuel : Nat)
      (target : Int) (count : Nat),
      ∃ k, (mainLoop envOf fuel target count calls).processed.map Prod.fst =
        (calls.map PendingCall.row).take k := by
  intro calls
  induction calls with
  | nil =>
    intro envOf fuel target count
    exact ⟨0, by simp [mainLoop]⟩
  | cons c rest ih =>
    intro envOf fuel target count
    simp only [mainLoop]
    by_cases hcnt : (count : Int) ≥ target
    · rw [if_pos hcnt]
      exact ⟨0, by simp⟩
    · rw [if_neg hcnt]
      cases hw : process_call_workflow (envOf c.row) c fuel with
      | none => exact ⟨0, by simp⟩
      | some res =>
        dsimp only
        cases hres : res.result with
        | none =>
          obtain ⟨k, hk⟩ := ih envOf fuel target count
          exact ⟨k + 1, by simp [hk]⟩
        | some rec =>
          dsimp only
          cases hp : rec.posts with
          | none =>
            obtain ⟨k, hk⟩ := ih envOf fuel target count
            exact ⟨k + 1, by simp [hk]⟩
          | some p =>
            dsimp only
            by_cases ht : jsonTruthy p = true
            · rw [if_pos ht]
              by_cases hb : buildNotifyOk rec.analysis p = true
              · rw [if_pos hb]
                obtain ⟨k, hk⟩ := ih envOf fuel target (count + 1)
                exact ⟨k + 1, by simp [hk]⟩
              · rw [if_neg hb]
                exact ⟨1, by simp⟩
            · rw [if_neg ht]
              obtain ⟨k, hk⟩ := ih envOf fuel target count
              exact ⟨k + 1, by simp [hk]⟩

/-! ### Claim C5 — the score ≥ 6 content gate -/

/-- The workflow trace of the concrete high-score record. -/
def resFull : WorkflowResult :=
  ⟨some ⟨jHigh, some jPosts⟩, [mkWrite 1 jHigh], true, true, true, true, 0⟩

/-- C5 counterexample: an analysis reply that parses to `{"score": 7}` with
no pain-point / transcript fields.  The record is analyzed and written back
as Processed with score 7 (≥ 6), yet no content-generation request is
attempted — building the content prompt raises a KeyError first — refuting
the stated "if and only if". -/
theorem C5_counterexample :
    process_call_workflow envScoreOnly ⟨1, "u"⟩ 3 =
      some ⟨none, [⟨"Calls!D1:F1",
        [Json.str ("Processed"), Json.num 7, Json.str ("")]⟩],
        true, true, true, false, 0⟩ ∧
    pyGeInt (Json.num 7) 6 = some true := by
  exact ⟨rfl, rfl⟩

/-- C5 amended: a content-generation request is attempted iff the parsed
score compares ≥ 6 AND the parsed analysis has both a `pain_point` and a
`transcript_summary` key (their bracket lookups happen while building the
content prompt; a missing key raises a KeyError that aborts the record
after the write-back).  A call whose parsed dict compares below 6 is still
written back as Processed with its score and summary, gets no posts, and —
third conjunct — a notified row always comes from a record whose content
generation was attempted. -/
theorem C5_score_six_content_gate :
    (∀ env call fuel res j,
      process_call_workflow env call fuel = some res →
      res.analysisAttempted = true →
      robust_generate_content env.analysisGen = some j →
      ((res.contentAttempted = true ↔
         (pyGeInt (jGet j ("score") (Json.num 0)) 6 = some true ∧
          jIndex j ("pain_point") ≠ none ∧ jIndex j ("transcript_summary") ≠ none)) ∧
       (jsonTruthy j = true → jIsObj j = true →
         pyGeInt (jGet j ("score") (Json.num 0)) 6 = some false →
         res.writes = [mkWrite call.row j] ∧ res.result = some ⟨j, none⟩ ∧
         res.contentAttempted = false))) ∧
    (∀ (envOf : Nat → WorkflowEnv) (fuel : Nat) (target : Int) (count : Nat)
       (calls : List PendingCall) (r : Nat),
       r ∈ (mainLoop envOf fuel target count calls).notified →
       ∃ res, (r, res) ∈ (mainLoop envOf fuel target count calls).processed ∧
         res.contentAttempted = true) := by
  constructor
  · intro env call fuel res j h ha hr
    unfold process_call_workflow at h
    split at h
    · injection h with h2
      subst h2
      exact absurd ha (by simp)
    · split at h
      · injection h with h2
        subst h2
        exact absurd ha (by simp)
      · split at h
        · exact Option.noConfusion h
        · rename_i n hpoll
          split at h
          · rename_i hrob
            rw [hr] at hrob
            exact Option.noConfusion hrob
          · rename_i j2 hrob
            rw [hr] at hrob
            injection hrob with hj
            subst hj
            split at h
            · rename_i htr
              injection h with h2
              subst h2
              exact ⟨⟨fun hc => absurd hc (by simp),
                      fun hcond => absurd hcond (falsy_no_content_cond _ htr)⟩,
                     fun ht2 _ _ => absurd htr (by simp [ht2])⟩
            · rename_i htr
              split at h
              · rename_i l
                split at h
                · rename_i hg
                  injection h with h2
                  subst h2
                  refine ⟨⟨fun hc => absurd hc (by simp), fun hcond => ?_⟩,
                          fun _ _ hg2 => ?_⟩
                  · exact absurd (hg.symm.trans hcond.1) (by simp)
                  · exact absurd (hg.symm.trans hg2) (by simp)
                · rename_i hg
                  injection h with h2
                  subst h2
                  refine ⟨⟨fun hc => absurd hc (by simp),
                           fun hcond => absurd (hg.symm.trans hcond.1) (by simp)⟩,
                          fun _ _ _ => ⟨rfl, rfl, rfl⟩⟩
                · rename_i hg
                  split at h
                  · rename_i v1 v2 hp hq
                    injection h with h2
                    subst h2
                    refine ⟨⟨fun _ => ⟨hg, by simp [hp], by simp [hq]⟩, fun _ => rfl⟩,
                            fun _ _ hg2 => absurd (hg.symm.trans hg2) (by simp)⟩
                  · rename_i hne
                    injection h with h2
                    subst h2
                    refine ⟨⟨fun hc => absurd hc (by simp), fun hcond => ?_⟩,
                            fun _ _ hg2 => absurd (hg.symm.trans hg2) (by simp)⟩
                    rcases hx : jIndex (Json.obj l) ("pain_point") with _ | v1
                    · exact (hcond.2.1 hx).elim
                    · rcases hy : jIndex (Json.obj l) ("transcript_summary") with _ | v2
                      · exact (hcond.2.2 hy).elim
                      · exact (hne v1 v2 hx hy).elim
              · rename_i hne1
                injection h with h2
                subst h2
                have hio : jIsObj j = false := by
                  cases j with
                  | obj l => exact absurd rfl (hne1 l)
                  | null => rfl
                  | bool b => rfl
                  | num m => rfl
                  | str s => rfl
                  | arr a => rfl
                refine ⟨⟨fun hc => absurd hc (by simp),
                         fun hcond => (hcond.2.1 (notObj_jIndex_none _ _ hio)).elim⟩,
                        fun _ hobj _ => absurd hobj (by simp [hio])⟩
  · intro envOf fuel target count calls r hmem
    obtain ⟨res, rec, p, hmem2, hres, hp⟩ :=
      mainLoop_notified_has_posts calls envOf fuel target count r hmem
    obtain ⟨c, hc, he, hwf⟩ :=
      mainLoop_processed_from_workflow calls envOf fuel target count (r, res) hmem2
    exact ⟨res, hmem2, workflow_posts_attempted _ _ _ _ _ _ hwf hres hp⟩

/-- Witness for C5 at the concrete high-score record with both prompt
fields present: the gate is satisfied and content generation is
attempted. -/
theorem C5_score_six_content_gate_witness :
    (resFull.contentAttempted = true ↔
      (pyGeInt (jGet jHigh ("score") (Json.num 0)) 6 = some true ∧
       jIndex jHigh ("pain_point") ≠ none ∧
       jIndex jHigh ("transcript_summary") ≠ none)) ∧
    (jsonTruthy jHigh = true → jIsObj jHigh = true →
      pyGeInt (jGet jHigh ("score") (Json.num 0)) 6 = some false →
      resFull.writes = [mkWrite 1 jHigh] ∧ resFull.result = some ⟨jHigh, none⟩ ∧
      resFull.contentAttempted = false) :=
  C5_score_six_content_gate.1 envFull ⟨1, "u"⟩ 3 resFull jHigh rfl rfl rfl

/-! ### Claim C1 — winner selection -/

/-- Settings fetch returning target count 2. -/
def settingsOk : Except Unit (List (List String)) := Except.ok [["2"]]

/-- A queue with one Pending 400-second call. -/
def callsRowsC1 : List (List String) := [["c1", "u1", "400", "Pending"]]

/-- C1 counterexample: one analyzed record (row 1, score 4), target count 2.
The spec ranker selects the top-2 of the analyzed records — i.e. row 1 —
for content generation; the code never sorts and gates on score ≥ 6, so it
attempts content generation for no record at all and notifies nobody. -/
theorem C1_counterexample :
    mainRun settingsOk callsRowsC1 (fun _ => envLow) 3 =
      (2, [⟨1, "u1"⟩],
       ⟨[(1, ⟨some ⟨jLow, none⟩, [mkWrite 1 jLow], true, true, true, false, 0⟩)],
        [], false, false⟩) ∧
    rankerSpec [⟨1, 4⟩] 2 = [⟨1, 4⟩] ∧
    ((⟨[(1, ⟨some ⟨jLow, none⟩, [mkWrite 1 jLow], true, true, true, false, 0⟩)],
       [], false, false⟩ : MainResult).processed.filter
        (fun pr => pr.2.contentAttempted)).map Prod.fst = [] := by
  exact ⟨rfl, rfl, rfl⟩

/-- C1 amended: there is no ranking step.  The processed records are a
scan-order prefix of the queue (the loop walks front to back and stops once
`processed_count` notifications reach the target), and content generation is
attempted only for records whose parsed score compares ≥ 6 — never because
of rank among analyzed records. -/
theorem C1_no_ranker_greedy_prefix :
    ∀ (envOf : Nat → WorkflowEnv) (fuel : Nat) (target : Int) (count : Nat)
      (calls : List PendingCall),
      (∃ k, (mainLoop envOf fuel target count calls).processed.map Prod.fst =
        (calls.map PendingCall.row).take k) ∧
      (∀ pr ∈ (mainLoop envOf fuel target count calls).processed,
        pr.2.contentAttempted = true →
          ∃ j posts, pr.2.result = some ⟨j, posts⟩ ∧
            pyGeInt (jGet j ("score") (Json.num 0)) 6 = some true) := by
  intro envOf fuel target count calls
  refine ⟨mainLoop_processed_take calls envOf fuel target count, ?_⟩
  intro pr hpr hc
  obtain ⟨c, hcmem, he, hwf⟩ :=
    mainLoop_processed_from_workflow calls envOf fuel target count pr hpr
  obtain ⟨j, hres, hg⟩ := workflow_attempted_score _ _ _ _ hwf hc
  exact ⟨j, _, hres, hg⟩

/-- Witness for C1 at the concrete one-record low-score run. -/
theorem C1_no_ranker_greedy_prefix_witness :
    (∃ k, (mainLoop (fun _ => envLow) 3 2 0 [⟨1, "u1"⟩]).processed.map Prod.fst =
      (([⟨1, "u1"⟩] : List PendingCall).map PendingCall.row).take k) ∧
    (∀ pr ∈ (mainLoop (fun _ => envLow) 3 2 0 [⟨1, "u1"⟩]).processed,
      pr.2.contentAttempted = true →
        ∃ j posts, pr.2.result = some ⟨j, posts⟩ ∧
          pyGeInt (jGet j ("score") (Json.num 0)) 6 = some true) :=
  C1_no_ranker_greedy_prefix (fun _ => envLow) 3 2 0 [⟨1, "u1"⟩]
